import Mathlib

/-!
Verification development for the phone-price question-answering pipeline
(`src/index.js`).  The JavaScript source is shallowly embedded: cells,
questions and record fields are Lean `String`s, nullable values are
`Option String`, and the spreadsheet / OpenAI network calls are replaced by
explicit inputs (the fetched grid, the capability's textual reply).
-/

/-- The JavaScript `\s` / `trim` whitespace class (ECMA-262 StrWhiteSpace,
including line terminators), by code point. -/
def isJsWs (c : Char) : Bool :=
  let n := c.toNat
  n == 9 || n == 10 || n == 11 || n == 12 || n == 13 || n == 32 ||
  n == 0xA0 || n == 0x1680 || (0x2000 ≤ n && n ≤ 0x200A) ||
  n == 0x2028 || n == 0x2029 || n == 0x202F || n == 0x205F ||
  n == 0x3000 || n == 0xFEFF

/-- The JavaScript `\d` class. -/
def isJsDigit (c : Char) : Bool :=
  '0' ≤ c && c ≤ '9'

/-- The JavaScript `\w` class: `[A-Za-z0-9_]`. -/
def isJsWordChar (c : Char) : Bool :=
  ('a' ≤ c && c ≤ 'z') || ('A' ≤ c && c ≤ 'Z') || isJsDigit c || c == '_'

/-- `String.prototype.toLowerCase`, modelled on the ASCII range (code points
65–90 map to 97–122); the Korean characters appearing in this program are
unaffected by case mapping. -/
def jsToLowerChar (c : Char) : Char :=
  if 65 ≤ c.toNat && c.toNat ≤ 90 then Char.ofNat (c.toNat + 32) else c

/-- `toLowerCase` on strings. -/
def jsToLower (s : String) : String :=
  String.mk (s.toList.map jsToLowerChar)

/-- `String.prototype.trim` on the character list. -/
def trimList (l : List Char) : List Char :=
  ((l.dropWhile isJsWs).reverse.dropWhile isJsWs).reverse

/-- `String.prototype.trim`. -/
def jsTrim (s : String) : String :=
  String.mk (trimList s.toList)

/-- `pat` occurs as a contiguous run inside `l`. -/
def listContains (pat : List Char) : List Char → Bool
  | [] => pat.isEmpty
  | c :: cs => pat.isPrefixOf (c :: cs) || listContains pat cs

/-- `String.prototype.includes pat` (also the regex test for a literal
alternative): `pat` occurs as a contiguous substring of `s`. -/
def containsStr (s pat : String) : Bool :=
  listContains pat.toList s.toList

/-- `s.toLowerCase().replace(/\s+/g, "")`. -/
def lowerNoSpace (s : String) : String :=
  String.mk ((jsToLower s).toList.filter (fun c => !isJsWs c))

/-- Numeric value of a list of decimal digits. -/
def natOfDigits (l : List Char) : Nat :=
  l.foldl (fun a c => 10 * a + (c.toNat - '0'.toNat)) 0

/-- First maximal run of digits in a character list (the first match of the
regex `/\d+/`), or `none` when the list has no digit. -/
def firstDigitRun : List Char → Option (List Char)
  | [] => none
  | c :: cs => if isJsDigit c then some (c :: cs.takeWhile isJsDigit) else firstDigitRun cs

/-- `parseInt(s)` in base 10: skip leading whitespace, optional sign, then a
leading digit run; `none` models `NaN`.  (Hex prefixes never occur in this
program's inputs and are not modelled.) -/
def jsParseInt (s : String) : Option Int :=
  let l := s.toList.dropWhile isJsWs
  match l with
  | '-' :: rest =>
    let run := rest.takeWhile isJsDigit
    if run.isEmpty then none else some (-(natOfDigits run : Int))
  | '+' :: rest =>
    let run := rest.takeWhile isJsDigit
    if run.isEmpty then none else some (natOfDigits run : Int)
  | _ =>
    let run := l.takeWhile isJsDigit
    if run.isEmpty then none else some (natOfDigits run : Int)

/-- `[...new Set(list)]`: deduplication keeping first occurrences, in order. -/
def jsSetDedup (l : List String) : List String :=
  l.foldl (fun acc x => if x ∈ acc then acc else acc ++ [x]) []

/-- JavaScript truthiness of a nullable string: `null`/`undefined` and `""`
are falsy. -/
def strTruthy (o : Option String) : Bool :=
  match o with
  | none => false
  | some s => s != ""

/-- String interpolation of a nullable value: `${null}` renders as "null". -/
def optStr (o : Option String) : String :=
  match o with
  | none => "null"
  | some s => s

/-- `x || ""` on a nullable string. -/
def orEmpty (o : Option String) : String :=
  match o with
  | none => ""
  | some s => s

/-! ## Record Extractor (`parseFullSheetStructure` and helpers)

A sheet cell is a `String`; an absent cell is the empty string (the sheets
API contract in the spec).  A fetched spreadsheet is a list of sections
`(sheetName, rows)`; the network fetch itself is not modelled. -/

/-- Section context derived from a sheet name (`parseSheetInfo`). -/
structure SheetInfo where
  telecom : String
  channel : String
deriving DecidableEq

/-- `parseSheetInfo`: carrier and channel from substrings of the sheet name;
unrecognized names map to the "Unknown" sentinel. -/
def parseSheetInfo (sheetName : String) : SheetInfo :=
  { telecom :=
      if containsStr sheetName "SK" then "SK"
      else if containsStr sheetName "KT" then "KT"
      else if containsStr sheetName "LG" then "LG"
      else "Unknown"
    channel :=
      if containsStr sheetName "온라인" then "온라인"
      else if containsStr sheetName "내방" then "내방"
      else "Unknown" }

/-- `normalizeModelName`: lowercase, then strip `\s+`, then strip
`[^a-z0-9ㄱ-ㅎ가-힣]` (the source's character class). -/
def normalizeModelName (modelName : String) : String :=
  String.mk ((((jsToLower modelName).toList.filter (fun c => !isJsWs c)).filter
    (fun c => ('a' ≤ c && c ≤ 'z') || isJsDigit c ||
              ('ㄱ' ≤ c && c ≤ 'ㅎ') || ('가' ≤ c && c ≤ '힣'))))

/-- The normalization the spec describes for `modelNorm`, as one pass:
lowercase each character, drop whitespace, keep only Latin letters, digits
and Hangul (the source's Hangul ranges: compatibility consonant jamo
`ㄱ`–`ㅎ` and syllables `가`–`힣`). -/
def specModelNorm (s : String) : String :=
  String.mk ((s.toList.map jsToLowerChar).filter
    (fun c => !isJsWs c &&
      (('a' ≤ c && c ≤ 'z') || isJsDigit c ||
       ('ㄱ' ≤ c && c ≤ 'ㅎ') || ('가' ≤ c && c ≤ '힣'))))

/-- `normalizeCapacity` (the updated variant): empty or blank cell yields the
`"기본"` sentinel; otherwise the first digit run of the cell; `"기본"` when
the cell has no digit. -/
def normalizeCapacity (capacity : String) : String :=
  if capacity == "" || jsTrim capacity == "" then "기본"
  else
    match firstDigitRun capacity.toList with
    | some run => String.mk run
    | none => "기본"

/-- `cleanPrice`: keep only digits and minus signs. -/
def cleanPrice (priceStr : String) : String :=
  if priceStr == "" then ""
  else String.mk (priceStr.toList.filter (fun c => isJsDigit c || c == '-'))

/-- Add-on service descriptor (columns K–N). -/
structure ServiceInfo where
  serviceName : String
  monthlyFee : String
  duration : String
  additionalFee : String
deriving DecidableEq

/-- `row[i]`, with absent cells as `""`. -/
def cell (row : List String) (i : Nat) : String :=
  row.getD i ""

/-- `parseServiceInfoNew`: a descriptor only when all four cells K–N are
non-empty. -/
def parseServiceInfoNew (row : List String) : Option ServiceInfo :=
  if cell row 10 != "" && cell row 11 != "" && cell row 12 != "" && cell row 13 != "" then
    some { serviceName := jsTrim (cell row 10)
           monthlyFee := cleanPrice (cell row 11)
           duration := jsTrim (cell row 12)
           additionalFee := cleanPrice (cell row 13) }
  else none

/-- The flat record model produced by the extractor. -/
structure PriceRecord where
  modelRaw : String
  modelNorm : String
  capacity : String
  telecom : String
  type : String
  channel : String
  plan : String
  price : String
  serviceInfo : Option ServiceInfo
deriving DecidableEq

/-- The records one data row contributes: the whole row is skipped when its
first cell is empty or blank; otherwise a port-in record from columns
A/B/C/D when A, B, D are non-empty, and a device-upgrade record from columns
F/G/H/I when F, G, I are non-empty. -/
def rowRecords (info : SheetInfo) (row : List String) : List PriceRecord :=
  if cell row 0 == "" || jsTrim (cell row 0) == "" then []
  else
    (if cell row 0 != "" && cell row 1 != "" && cell row 3 != "" then
      [{ modelRaw := jsTrim (cell row 0)
         modelNorm := normalizeModelName (jsTrim (cell row 0))
         capacity := normalizeCapacity (cell row 2)
         telecom := info.telecom
         type := "번호이동"
         channel := info.channel
         plan := cleanPrice (cell row 1)
         price := cleanPrice (cell row 3)
         serviceInfo := parseServiceInfoNew row }]
    else []) ++
    (if cell row 5 != "" && cell row 6 != "" && cell row 8 != "" then
      [{ modelRaw := jsTrim (cell row 5)
         modelNorm := normalizeModelName (jsTrim (cell row 5))
         capacity := normalizeCapacity (cell row 7)
         telecom := info.telecom
         type := "기기변경"
         channel := info.channel
         plan := cleanPrice (cell row 6)
         price := cleanPrice (cell row 8)
         serviceInfo := parseServiceInfoNew row }]
    else [])

/-- `parseFullSheetStructure`, the pure transformation part: sections with
fewer than three rows are skipped, data rows start at the third row of each
section.  (The sheets fetch and the `commonServiceInfo` aggregation, which
the verified claims do not touch, are omitted.) -/
def parseFullSheetStructure (sheetsData : List (String × List (List String))) :
    List PriceRecord :=
  sheetsData.flatMap fun sd =>
    if sd.2.length < 3 then []
    else (sd.2.drop 2).flatMap (rowRecords (parseSheetInfo sd.1))

/-! ## Question Classifier (`analyzeQuestion`, `checkXxx`, `getPrimaryScenario`)

The regex tests of the source are translated alternative by alternative;
every `checkXxx` receives the question already lowercased and trimmed, as in
`analyzeQuestion`. -/

/-- Some pair of adjacent characters satisfies `p`. -/
def hasAdjacent (p : Char → Char → Bool) : List Char → Bool
  | a :: b :: rest => p a b || hasAdjacent p (b :: rest)
  | _ => false

/-- Some triple of adjacent characters satisfies `p`. -/
def hasAdjacent3 (p : Char → Char → Char → Bool) : List Char → Bool
  | a :: b :: c :: rest => p a b c || hasAdjacent3 p (c :: rest) || hasAdjacent3 p (b :: c :: rest)
  | _ => false

/-- The test of `/(\w+)랑|어디가|뭐가|더|비교|vs|대|차이|싼가요|저렴한가요|이득|낫|좋|나은/`:
either a word character directly followed by `랑`, or one of the literal
alternatives occurs. -/
def comparisonTest (q : String) : Bool :=
  hasAdjacent (fun a b => isJsWordChar a && b == '랑') q.toList ||
  containsStr q "어디가" || containsStr q "뭐가" || containsStr q "더" ||
  containsStr q "비교" || containsStr q "vs" || containsStr q "대" ||
  containsStr q "차이" || containsStr q "싼가요" || containsStr q "저렴한가요" ||
  containsStr q "이득" || containsStr q "낫" || containsStr q "좋" ||
  containsStr q "나은"

/-- The test of `/(갤럭시|아이폰|galaxy|iphone)/i`. -/
def modelKeywordTest (q : String) : Bool :=
  containsStr (jsToLower q) "갤럭시" || containsStr (jsToLower q) "아이폰" ||
  containsStr (jsToLower q) "galaxy" || containsStr (jsToLower q) "iphone"

/-- The test of `/(SK|KT|LG)/i`. -/
def telecomKeywordTest (q : String) : Bool :=
  containsStr (jsToLower q) "sk" || containsStr (jsToLower q) "kt" ||
  containsStr (jsToLower q) "lg"

/-- The test of `/(번호이동|기기변경|기변|번이)/i`. -/
def typeKeywordTest (q : String) : Bool :=
  containsStr q "번호이동" || containsStr q "기기변경" ||
  containsStr q "기변" || containsStr q "번이"

/-- The matches of `/\b\d+\b/g` followed by `parseInt`: values of the maximal
digit runs that are flanked by non-word characters (or the ends of the
string).  The scan resumes after each run; the character preceding the
remainder is then a digit, so `'0'` is passed as the context.  The fuel
argument only bounds the recursion and is initialized to the list length. -/
def jsWordNumbersAux : Nat → Option Char → List Char → List Nat
  | 0, _, _ => []
  | _, _, [] => []
  | fuel + 1, prev, c :: cs =>
    if isJsDigit c && !(match prev with | none => false | some p => isJsWordChar p) then
      let run := c :: cs.takeWhile isJsDigit
      let rest := cs.dropWhile isJsDigit
      let boundaryOk := match rest with | [] => true | d :: _ => !isJsWordChar d
      (if boundaryOk then [natOfDigits run] else []) ++ jsWordNumbersAux fuel (some '0') rest
    else jsWordNumbersAux fuel (some c) cs

/-- All `\b\d+\b` numbers of a question. -/
def jsWordNumbers (q : String) : List Nat :=
  jsWordNumbersAux q.toList.length none q.toList

/-- The `hasValidCapacity` computation shared by `checkModelOnly` and
`checkModelCapacity`: some standalone number of the question is at least 64. -/
def hasValidCapacity (q : String) : Bool :=
  (jsWordNumbers q).any (fun n => 64 ≤ n)

/-- `checkModelOnly`. -/
def checkModelOnly (q : String) : Bool :=
  modelKeywordTest q && !hasValidCapacity q

/-- `checkModelCapacity`. -/
def checkModelCapacity (q : String) : Bool :=
  modelKeywordTest q && hasValidCapacity q && !telecomKeywordTest q && !typeKeywordTest q

/-- The test of `/(\d+)(?:GB)?/i`: any digit occurs. -/
def digitTest (q : String) : Bool :=
  q.toList.any isJsDigit

/-- `checkModelCapacityTelecom`. -/
def checkModelCapacityTelecom (q : String) : Bool :=
  modelKeywordTest q && digitTest q && telecomKeywordTest q && !typeKeywordTest q

/-- `checkFullCondition`. -/
def checkFullCondition (q : String) : Bool :=
  modelKeywordTest q && digitTest q && telecomKeywordTest q && typeKeywordTest q

/-- The test of `/가격\s*좀/`-style patterns: `a`, then any run of
whitespace, then `b`. -/
def wsGapTest (a b : List Char) : List Char → Bool
  | [] => false
  | c :: cs =>
    (a.isPrefixOf (c :: cs) && b.isPrefixOf (((c :: cs).drop a.length).dropWhile isJsWs)) ||
    wsGapTest a b cs

/-- The test of `/^(갤럭시|아이폰|galaxy|iphone)\s+\w*\d+\w*$/i`: a brand
keyword, one or more whitespace characters, then a non-empty tail of word
characters containing a digit, and nothing else. -/
def properModelFormTest (q : String) : Bool :=
  let l := (jsToLower q).toList
  [("갤럭시" : String), "아이폰", "galaxy", "iphone"].any fun br =>
    let bl := br.toList
    bl.isPrefixOf l &&
    (let rest := l.drop bl.length
     let wsRun := rest.takeWhile isJsWs
     let tail := rest.dropWhile isJsWs
     !wsRun.isEmpty && !tail.isEmpty && tail.all isJsWordChar && tail.any isJsDigit)

/-- `checkInformal`: abbreviations, carrier shorthand, digit–`프` patterns,
`가격…좀` phrasing, or a word–digit–word run that is not a well-formed
brand-plus-model question. -/
def checkInformal (q : String) : Bool :=
  containsStr q "프맥" || containsStr q "울트라" || containsStr q "플러스" ||
  containsStr q "프로" ||
  containsStr q "sk" || containsStr q "kt" || containsStr q "lg" ||
  containsStr q "번이" || containsStr q "기변" ||
  hasAdjacent (fun a b => isJsDigit a && b == '프') q.toList ||
  hasAdjacent (fun a b => a == '프' && isJsDigit b) q.toList ||
  wsGapTest "가격".toList "좀".toList q.toList ||
  wsGapTest "좀".toList "가격".toList q.toList ||
  (hasAdjacent3 (fun a b c => isJsWordChar a && isJsDigit b && isJsWordChar c) q.toList &&
   !properModelFormTest q)

/-- The six scenario flags of `analyzeQuestion`. -/
structure Scenarios where
  COMPARISON : Bool
  MODEL_ONLY : Bool
  MODEL_CAPACITY : Bool
  MODEL_CAPACITY_TELECOM : Bool
  FULL_CONDITION : Bool
  INFORMAL : Bool
deriving DecidableEq

/-- `getPrimaryScenario`: fixed priority order, comparison first, informal
second. -/
def getPrimaryScenario (scenarios : Scenarios) : String :=
  if scenarios.COMPARISON then "COMPARISON"
  else if scenarios.INFORMAL then "INFORMAL"
  else if scenarios.FULL_CONDITION then "FULL_CONDITION"
  else if scenarios.MODEL_CAPACITY_TELECOM then "MODEL_CAPACITY_TELECOM"
  else if scenarios.MODEL_CAPACITY then "MODEL_CAPACITY"
  else if scenarios.MODEL_ONLY then "MODEL_ONLY"
  else "UNKNOWN"

/-- The scenario flags computed on the lowercased, trimmed question. -/
def questionScenarios (q : String) : Scenarios :=
  { COMPARISON := comparisonTest q
    MODEL_ONLY := checkModelOnly q
    MODEL_CAPACITY := checkModelCapacity q
    MODEL_CAPACITY_TELECOM := checkModelCapacityTelecom q
    FULL_CONDITION := checkFullCondition q
    INFORMAL := checkInformal q }

/-- Result of `analyzeQuestion`.  (The `extracted` component, which no
verified claim inspects, is omitted.) -/
structure Analysis where
  originalQuestion : String
  scenarios : Scenarios
  primaryScenario : String
deriving DecidableEq

/-- `analyzeQuestion`: lowercase and trim, compute the scenario flags, pick
the primary scenario. -/
def analyzeQuestion (question : String) : Analysis :=
  let q := jsTrim (jsToLower question)
  { originalQuestion := question
    scenarios := questionScenarios q
    primaryScenario := getPrimaryScenario (questionScenarios q) }

/-- The dispatch of `generateResponse` on the primary scenario, abstracted to
the handler it selects. -/
inductive HandlerTag where
  | modelOnly
  | modelCapacity
  | modelCapacityTelecom
  | fullCondition
  | comparison
  | informalGPT
  | unknown
deriving DecidableEq

/-- `generateResponse`'s `switch (primaryScenario)`. -/
def generateResponseDispatch (primaryScenario : String) : HandlerTag :=
  if primaryScenario == "MODEL_ONLY" then .modelOnly
  else if primaryScenario == "MODEL_CAPACITY" then .modelCapacity
  else if primaryScenario == "MODEL_CAPACITY_TELECOM" then .modelCapacityTelecom
  else if primaryScenario == "FULL_CONDITION" then .fullCondition
  else if primaryScenario == "COMPARISON" then .comparison
  else if primaryScenario == "INFORMAL" then .informalGPT
  else .unknown

/-! ## Model Matcher (the `string-similarity` dependency)

`compareTwoStrings` is the Dice coefficient on character bigrams; ratings
are kept as exact fractions (numerator, positive denominator) instead of
floating point, which preserves every comparison the library makes. -/

/-- Adjacent character pairs of a list. -/
def bigrams (l : List Char) : List (Char × Char) :=
  match l with
  | [] => []
  | _ :: t => l.zip t

/-- Size of the multiset intersection of two bigram lists. -/
def bigramInterCount : List (Char × Char) → List (Char × Char) → Nat
  | _, [] => 0
  | avail, x :: xs =>
    if x ∈ avail then 1 + bigramInterCount (avail.erase x) xs
    else bigramInterCount avail xs

/-- `stringSimilarity.compareTwoStrings` as a fraction: whitespace removed
from both strings, 1 for equal strings, 0 when either is shorter than two
characters, else `2·|bigram intersection| / (|a| + |b| − 2)`. -/
def compareTwoStrings (a b : String) : Nat × Nat :=
  let f := String.mk (a.toList.filter (fun c => !isJsWs c))
  let s := String.mk (b.toList.filter (fun c => !isJsWs c))
  if f == s then (1, 1)
  else if f.length < 2 || s.length < 2 then (0, 1)
  else (2 * bigramInterCount (bigrams f.toList) (bigrams s.toList),
        f.length + s.length - 2)

/-- Strict comparison of two ratings given as fractions. -/
def ratingGt (x y : Nat × Nat) : Bool :=
  x.1 * y.2 > y.1 * x.2

/-- `stringSimilarity.findBestMatch(...).bestMatch.target`: the first target
whose rating no later target strictly exceeds.  (The library throws on an
empty target list; the callers in this program always pass the non-empty
deduplicated model list, and the empty case is given the harmless result
`""`.) -/
def findBestMatchTarget (main : String) (targets : List String) : String :=
  match targets with
  | [] => ""
  | t0 :: rest =>
    (rest.foldl
      (fun best t =>
        if ratingGt (compareTwoStrings main t) best.2 then (t, compareTwoStrings main t)
        else best)
      (t0, compareTwoStrings main t0)).1

/-! ## Record Filter (`findMatchingRecords`, `isCapacityMatch`) -/

/-- The structured query consumed by `findMatchingRecords` (the GPT-parsed
fields `브랜드/모델/용량/통신사/타입`, here `brand/model/capacity/telecom/type`;
each may be null). -/
structure ParsedData where
  brand : Option String
  model : Option String
  capacity : Option String
  telecom : Option String
  type : Option String
deriving DecidableEq

/-- The search query string of `findMatchingRecords`: brand+model when both
are present and differ, the brand alone when the model is missing or
repeats it, the model alone otherwise. -/
def fmrSearchQuery (p : ParsedData) : String :=
  if strTruthy p.brand && strTruthy p.model && p.model != p.brand then
    lowerNoSpace (orEmpty p.brand ++ " " ++ orEmpty p.model)
  else if strTruthy p.brand && (!strTruthy p.model || p.model == p.brand) then
    lowerNoSpace (orEmpty p.brand)
  else if strTruthy p.model && !strTruthy p.brand then
    lowerNoSpace (orEmpty p.model)
  else ""

/-- The capacity-less branch of `findMatchingRecords`: keyword containment
over display names, with the priority-keyword trimming of oversized
brand-only result sets. -/
def fmrNoCapacity (p : ParsedData) (allRecords : List PriceRecord) : List PriceRecord :=
  let searchQuery := fmrSearchQuery p
  let availableModels := jsSetDedup (allRecords.map (fun r => r.modelRaw))
  let matchingModels := availableModels.filter
    (fun m => containsStr (lowerNoSpace m) searchQuery)
  let filteredRecords := allRecords.filter (fun r => matchingModels.contains r.modelRaw)
  if strTruthy p.brand && (!strTruthy p.model || p.model == p.brand) &&
      filteredRecords.length > 20 then
    let priorityKeywords := ["S25", "S24", "16", "15", "폴드", "fold", "플립", "flip",
      "울트라", "ultra"]
    let priorityRecords := filteredRecords.filter
      (fun r => priorityKeywords.any
        (fun kw => containsStr (jsToLower r.modelRaw) (jsToLower kw)))
    if priorityRecords.length > 0 && priorityRecords.length ≤ 20 then priorityRecords
    else filteredRecords
  else filteredRecords

/-- The fuzzy-matched model identifier used by the capacity branch of
`findMatchingRecords`. -/
def fmrTarget (p : ParsedData) (allRecords : List PriceRecord) : String :=
  findBestMatchTarget (fmrSearchQuery p) (jsSetDedup (allRecords.map (fun r => r.modelNorm)))

/-- `matchingRecords` right after the best-match filter: the records of the
fuzzy-matched model. -/
def fmrModelFiltered (p : ParsedData) (allRecords : List PriceRecord) : List PriceRecord :=
  allRecords.filter (fun r => r.modelNorm == fmrTarget p allRecords)

/-- `matchingRecords` after the capacity reassignment: a record passes with
the exact requested capacity or with the `"기본"` sentinel. -/
def fmrCapacityFiltered (p : ParsedData) (allRecords : List PriceRecord) : List PriceRecord :=
  if strTruthy p.capacity then
    (fmrModelFiltered p allRecords).filter
      (fun r => r.capacity == orEmpty p.capacity || r.capacity == "기본")
  else fmrModelFiltered p allRecords

/-- `matchingRecords` after the carrier reassignment. -/
def fmrTelecomFiltered (p : ParsedData) (allRecords : List PriceRecord) : List PriceRecord :=
  if strTruthy p.telecom then
    (fmrCapacityFiltered p allRecords).filter (fun r => r.telecom == orEmpty p.telecom)
  else fmrCapacityFiltered p allRecords

/-- `matchingRecords` after the transaction-type reassignment. -/
def fmrTypeFiltered (p : ParsedData) (allRecords : List PriceRecord) : List PriceRecord :=
  if strTruthy p.type then
    (fmrTelecomFiltered p allRecords).filter (fun r => r.type == orEmpty p.type)
  else fmrTelecomFiltered p allRecords

/-- `findMatchingRecords`: empty when neither brand nor model is given; the
keyword branch when no capacity is given; otherwise the best-match model's
records filtered by capacity (the `"기본"` sentinel always passes), then
carrier, then transaction type. -/
def findMatchingRecords (p : ParsedData) (allRecords : List PriceRecord) :
    List PriceRecord :=
  if !strTruthy p.brand && !strTruthy p.model then []
  else if !strTruthy p.capacity then fmrNoCapacity p allRecords
  else fmrTypeFiltered p allRecords

/-- `isCapacityMatch` (the improved variant): no requested capacity matches
everything; a record carrying the `"기본"` sentinel (or an empty capacity)
is rejected whenever a capacity was requested; otherwise exact equality or
equality of the first digit runs. -/
def isCapacityMatch (userCapacity : Option String) (recordCapacity : String) : Bool :=
  if !strTruthy userCapacity && recordCapacity == "" then true
  else if !strTruthy userCapacity then true
  else if recordCapacity == "" || recordCapacity == "기본" then false
  else if orEmpty userCapacity == recordCapacity then true
  else
    match firstDigitRun (orEmpty userCapacity).toList, firstDigitRun recordCapacity.toList with
    | some un, some rn => un == rn
    | _, _ => false

/-! ## `handleModelCapacity` (capacity present, no carrier) with the
nearest-capacity fallback.

The structured fields handed to the handler have the same shape as
`ParsedData` (`extractFromQuestion` and the GPT normalization both produce
`brand/model/capacity/telecom/type`, each nullable).  The handler's result
is abstracted to the branch taken: `formatAllConditions` renders its
`modelInfo` argument verbatim in the answer's header line, so the
substitution disclosure lives in the `modelInfo` string of the `breakdown`
constructor. -/

/-- Outcome of `handleModelCapacity`: a full breakdown of `records` headed
by `modelInfo`, or the not-found message. -/
inductive HMCResult where
  | breakdown (records : List PriceRecord) (modelInfo : String)
  | notFound (message : String)
deriving DecidableEq

/-- `fullModelQuery` of `handleModelCapacity`:
`(brand + " " + (model || "")).toLowerCase().replace(/\s+/g, "")`. -/
def hmcQuery (e : ParsedData) : String :=
  lowerNoSpace (optStr e.brand ++ " " ++ orEmpty e.model)

/-- The fuzzy-matched model identifier of `handleModelCapacity`. -/
def hmcTarget (e : ParsedData) (records : List PriceRecord) : String :=
  findBestMatchTarget (hmcQuery e) (jsSetDedup (records.map (fun r => r.modelNorm)))

/-- `modelRecords`: every record of the matched model. -/
def hmcModelRecords (e : ParsedData) (records : List PriceRecord) : List PriceRecord :=
  records.filter (fun r => r.modelNorm == hmcTarget e records)

/-- `matchingRecords`: matched model and matching capacity. -/
def hmcMatching (e : ParsedData) (records : List PriceRecord) : List PriceRecord :=
  records.filter
    (fun r => r.modelNorm == hmcTarget e records && isCapacityMatch e.capacity r.capacity)

/-- `availableCapacities`: the matched model's distinct capacities, empty
strings removed (`"기본"` kept). -/
def hmcAvailableCapacities (e : ParsedData) (records : List PriceRecord) : List String :=
  (jsSetDedup ((hmcModelRecords e records).map (fun r => r.capacity))).filter
    (fun cap => cap != "")

/-- `capacityNumbers` before sorting: the numeric capacities
(`parseInt` succeeds; `"기본"` drops out as `NaN`). -/
def hmcCapacityNumbers (e : ParsedData) (records : List PriceRecord) : List Int :=
  (hmcAvailableCapacities e records).filterMap jsParseInt

/-- `capacityNumbers` sorted by distance to the requested capacity.  When
`parseInt` of the request is `NaN` every comparison is `NaN`, which the sort
treats as equality, so the stable sort leaves the order unchanged. -/
def hmcSorted (e : ParsedData) (records : List PriceRecord) : List Int :=
  match jsParseInt (orEmpty e.capacity) with
  | some req =>
    (hmcCapacityNumbers e records).insertionSort
      (fun a b => (a - req).natAbs ≤ (b - req).natAbs)
  | none => hmcCapacityNumbers e records

/-- `closestCapacity`: decimal rendering of the first sorted capacity. -/
def hmcClosest (e : ParsedData) (records : List PriceRecord) : String :=
  match hmcSorted e records with
  | [] => ""
  | n :: _ => toString n

/-- `fallbackRecords`: the matched model's records at the re-rendered
closest capacity. -/
def hmcFallback (e : ParsedData) (records : List PriceRecord) : List PriceRecord :=
  records.filter
    (fun r => r.modelNorm == hmcTarget e records && r.capacity == hmcClosest e records)

/-- The not-found message of `handleModelCapacity`. -/
def hmcNotFoundMsg (e : ParsedData) (records : List PriceRecord) : String :=
  optStr e.brand ++ " " ++ optStr e.model ++ " " ++ optStr e.capacity ++
  "GB 정보를 찾을 수 없습니다.\n        \n🔍 검색된 모델: " ++ hmcTarget e records ++
  "\n📦 사용 가능한 용량: " ++ String.intercalate ", " (hmcAvailableCapacities e records) ++
  "\n\n💡 사용 가능한 용량으로 다시 문의해주세요:\n예: \"" ++ optStr e.brand ++ " " ++
  optStr e.model ++ " " ++ (hmcAvailableCapacities e records).getD 0 "undefined" ++
  " 얼마예요?\""

/-- The substitution disclosure header used when the nearest capacity is
substituted. -/
def hmcSubstitutionInfo (e : ParsedData) (records : List PriceRecord) : String :=
  optStr e.brand ++ " " ++ optStr e.model ++ " " ++ hmcClosest e records ++
  "GB (" ++ optStr e.capacity ++ "GB 대신 가장 가까운 용량)"

/-- `handleModelCapacity`: exact capacity match when possible; otherwise the
nearest numeric capacity is substituted when its re-rendered decimal string
matches some record; otherwise the not-found message. -/
def handleModelCapacity (e : ParsedData) (records : List PriceRecord) : HMCResult :=
  if (hmcMatching e records).isEmpty then
    if strTruthy e.capacity && !(hmcAvailableCapacities e records).isEmpty then
      if !(hmcSorted e records).isEmpty then
        if !(hmcFallback e records).isEmpty then
          .breakdown (hmcFallback e records) (hmcSubstitutionInfo e records)
        else .notFound (hmcNotFoundMsg e records)
      else .notFound (hmcNotFoundMsg e records)
    else .notFound (hmcNotFoundMsg e records)
  else
    .breakdown (hmcMatching e records)
      (optStr e.brand ++ " " ++ optStr e.model ++ " " ++ optStr e.capacity ++ "GB")

/-! ## NL Fallback Resolver (`processWithGPT` / `parseUserInput`)

The OpenAI call is replaced by its outcome: `.error ()` when the capability
throws or is unreachable, `.ok reply` with the textual reply otherwise.
Both source variants strip code fences with
`replace(/```json\s*\n?/g, "")` then `replace(/```\s*$/g, "")`, and every
failure path (network error, `JSON.parse` error) returns `null`. -/

/-- The global replacement of `/```json\s*\n?/` by `""`, fuel-bounded: each
occurrence of the tagged opening fence is removed together with the
whitespace run behind it, scanning left to right over the original text.
Every step consumes at least one character, so fuel equal to the length
never runs out. -/
def removeJsonOpensAux : Nat → List Char → List Char
  | 0, l => l
  | _, [] => []
  | fuel + 1, c :: cs =>
    if ("```json".toList).isPrefixOf (c :: cs) then
      removeJsonOpensAux fuel (((c :: cs).drop 7).dropWhile isJsWs)
    else c :: removeJsonOpensAux fuel cs

/-- The global replacement of `/```json\s*\n?/` by `""`. -/
def removeJsonOpens (l : List Char) : List Char :=
  removeJsonOpensAux l.length l

/-- The replacement of `/```\s*$/` by `""`: a closing fence followed only by
whitespace is removed together with that whitespace. -/
def removeTrailingFence (l : List Char) : List Char :=
  let r := l.reverse.dropWhile isJsWs
  if ['`', '`', '`'].isPrefixOf r then (r.drop 3).reverse else l

/-- The full reply clean-up applied before `JSON.parse`: trim, strip tagged
opening fences, strip a trailing closing fence, trim again. -/
def stripCodeFences (s : String) : String :=
  jsTrim (String.mk (removeTrailingFence (removeJsonOpens (jsTrim s).toList)))

/-- A JSON value of the shape the capability returns: string, integer or
null fields. -/
inductive JsonVal where
  | str (s : String)
  | num (n : Int)
  | null
deriving DecidableEq

/-- `skip` of JSON insignificant whitespace. -/
def skipWs (l : List Char) : List Char :=
  l.dropWhile isJsWs

/-- Body of a JSON string after the opening quote (escape sequences do not
occur in the replies modelled here and are rejected). -/
def jsonStrAux : List Char → List Char → Option (String × List Char)
  | [], _ => none
  | c :: cs, acc =>
    if c == '"' then some (String.mk acc.reverse, cs)
    else if c == '\\' then none
    else jsonStrAux cs (c :: acc)

/-- One JSON value: a string, `null`, or an (optionally negative) integer. -/
def jsonValue (l : List Char) : Option (JsonVal × List Char) :=
  match l with
  | '"' :: rest => (jsonStrAux rest []).map (fun p => (JsonVal.str p.1, p.2))
  | '-' :: rest =>
    let run := rest.takeWhile isJsDigit
    if run.isEmpty then none
    else some (JsonVal.num (-(natOfDigits run : Int)), rest.dropWhile isJsDigit)
  | _ =>
    if ("null".toList).isPrefixOf l then some (JsonVal.null, l.drop 4)
    else
      let run := l.takeWhile isJsDigit
      if run.isEmpty then none
      else some (JsonVal.num (natOfDigits run : Int), l.dropWhile isJsDigit)

/-- The members of a JSON object, after the opening brace (non-empty case);
fuel-bounded recursion. -/
def jsonMembers : List Char → Nat → Option (List (String × JsonVal) × List Char)
  | _, 0 => none
  | l, fuel + 1 =>
    match l with
    | '"' :: rest =>
      match jsonStrAux rest [] with
      | none => none
      | some (key, r1) =>
        match skipWs r1 with
        | ':' :: r2 =>
          match jsonValue (skipWs r2) with
          | none => none
          | some (v, r3) =>
            match skipWs r3 with
            | ',' :: r4 =>
              (jsonMembers (skipWs r4) fuel).map (fun p => ((key, v) :: p.1, p.2))
            | '}' :: r4 => some ([(key, v)], r4)
            | _ => none
        | _ => none
    | _ => none

/-- The fragment of the `JSON.parse` builtin these replies exercise: a flat
object of string/integer/null fields.  Nesting, escapes and fractional
numbers are not modelled; like the builtin, the parser rejects any text that
does not begin with a JSON value (in particular text beginning with a
backtick). -/
def jsonFlatParse (s : String) : Option (List (String × JsonVal)) :=
  match skipWs s.toList with
  | '{' :: rest =>
    match skipWs rest with
    | '}' :: r2 => if (skipWs r2).isEmpty then some [] else none
    | r2 =>
      match jsonMembers r2 (r2.length + 1) with
      | some (ps, r3) => if (skipWs r3).isEmpty then some ps else none
      | none => none
  | _ => none

/-- `processWithGPT` (and `parseUserInput`, identical in the modelled part):
a capability failure or any parse failure yields `none`; a textual reply is
fence-stripped and parsed. -/
def processWithGPT (reply : Except Unit String) : Option (List (String × JsonVal)) :=
  match reply with
  | .error _ => none
  | .ok content => jsonFlatParse (stripCodeFences content)

/-! ## Chatbot-skill webhook (`kakaoSkill`) request validation -/

/-- The `userRequest` object of a skill payload. -/
structure KakaoUserRequest where
  utterance : Option String
deriving DecidableEq

/-- A `simpleText` output. -/
structure SimpleText where
  text : String
deriving DecidableEq

/-- One entry of `template.outputs`. -/
structure KakaoOutput where
  simpleText : SimpleText
deriving DecidableEq

/-- `template`. -/
structure KakaoTemplate where
  outputs : List KakaoOutput
deriving DecidableEq

/-- The provider envelope `{version, template: {outputs: [{simpleText}]}}`. -/
structure KakaoEnvelope where
  version : String
  template : KakaoTemplate
deriving DecidableEq

/-- The envelope wrapping one simple-text message. -/
def kakaoEnvelope (text : String) : KakaoEnvelope :=
  { version := "2.0", template := { outputs := [{ simpleText := { text := text } }] } }

/-- The request-validation and response shaping of both `kakaoSkill`
variants, as HTTP status paired with the JSON body.  `answer` stands for the
pipeline's rendered reply on the success path, where `res.json` without an
explicit status sends 200; the missing-utterance branch sends its envelope
with `res.status(400)`. -/
def kakaoSkill (userRequest : Option KakaoUserRequest) (answer : String) :
    Nat × KakaoEnvelope :=
  if (match userRequest with
      | none => true
      | some ur => !strTruthy ur.utterance) then
    (400, kakaoEnvelope "질문을 입력해주세요.")
  else (200, kakaoEnvelope answer)

/-! ## Shared lemmas about the character-level model -/

theorem charOfNatAux_toNat (n : Nat) (hv : Nat.isValidChar n) :
    (Char.ofNatAux n hv).toNat = n := by
  simp [Char.ofNatAux, Char.toNat, UInt32.toNat, BitVec.toNat_ofNatLt]

theorem jsToLowerChar_toNat_of_upper (c : Char) (h1 : 65 ≤ c.toNat) (h2 : c.toNat ≤ 90) :
    (jsToLowerChar c).toNat = c.toNat + 32 := by
  have hv : Nat.isValidChar (c.toNat + 32) := Or.inl (by omega)
  have hb : (65 ≤ c.toNat && c.toNat ≤ 90) = true := by
    simp only [Bool.and_eq_true, decide_eq_true_eq]
    exact ⟨h1, h2⟩
  simp [jsToLowerChar, hb, Char.ofNat, hv, charOfNatAux_toNat]

theorem jsToLowerChar_eq_self (c : Char) (h : ¬(65 ≤ c.toNat ∧ c.toNat ≤ 90)) :
    jsToLowerChar c = c := by
  have hb : (65 ≤ c.toNat && c.toNat ≤ 90) = false := by
    simp only [Bool.and_eq_false_iff, decide_eq_false_iff_not]
    omega
  simp [jsToLowerChar, hb]

theorem jsToLowerChar_idem (c : Char) :
    jsToLowerChar (jsToLowerChar c) = jsToLowerChar c := by
  by_cases h : 65 ≤ c.toNat ∧ c.toNat ≤ 90
  · have ht := jsToLowerChar_toNat_of_upper c h.1 h.2
    exact jsToLowerChar_eq_self _ (by omega)
  · rw [jsToLowerChar_eq_self c h, jsToLowerChar_eq_self c h]

theorem isJsWs_of_toNat (c : Char) (h1 : 65 ≤ c.toNat) (h2 : c.toNat ≤ 122) :
    isJsWs c = false := by
  simp only [isJsWs, Bool.or_eq_false_iff, beq_eq_false_iff_ne, ne_eq,
    Bool.and_eq_false_iff, decide_eq_false_iff_not]
  omega

theorem isJsWs_jsToLowerChar (c : Char) : isJsWs (jsToLowerChar c) = isJsWs c := by
  by_cases h : 65 ≤ c.toNat ∧ c.toNat ≤ 90
  · have ht := jsToLowerChar_toNat_of_upper c h.1 h.2
    rw [isJsWs_of_toNat _ (by omega) (by omega), isJsWs_of_toNat c (by omega) (by omega)]
  · rw [jsToLowerChar_eq_self c h]

theorem toList_mk (l : List Char) : (String.mk l).toList = l := rfl

theorem map_eq_self_of_fixed {f : Char → Char} {l : List Char}
    (h : ∀ x ∈ l, f x = x) : l.map f = l := by
  induction l with
  | nil => rfl
  | cons a t ih =>
    simp only [List.map_cons, List.cons.injEq]
    exact ⟨h a (by simp), ih (fun x hx => h x (by simp [hx]))⟩

theorem trimList_subset (l : List Char) : ∀ x ∈ trimList l, x ∈ l := by
  intro x hx
  unfold trimList at hx
  have h1 := (List.dropWhile_sublist (l := (l.dropWhile isJsWs).reverse) isJsWs).subset
  have h2 := (List.dropWhile_sublist (l := l) isJsWs).subset
  rw [List.mem_reverse] at hx
  have := h1 hx
  rw [List.mem_reverse] at this
  exact h2 this

theorem jsToLower_jsTrim_jsToLower (s : String) :
    jsToLower (jsTrim (jsToLower s)) = jsTrim (jsToLower s) := by
  show jsToLower (String.mk (trimList (s.toList.map jsToLowerChar))) =
       String.mk (trimList (s.toList.map jsToLowerChar))
  unfold jsToLower
  rw [toList_mk]
  congr 1
  apply map_eq_self_of_fixed
  intro x hx
  have := trimList_subset _ x hx
  obtain ⟨y, _, rfl⟩ := List.mem_map.1 this
  exact jsToLowerChar_idem y

/-! ## Claim theorems -/

/-- C3: any question whose lowercased, trimmed text matches the comparison
vocabulary receives `"COMPARISON"` as its primary scenario and is dispatched
to the comparison handler, never to the full-condition handler — regardless
of whatever structured fields the question also carries. -/
theorem c3_comparison_takes_priority (question : String)
    (h : comparisonTest (jsTrim (jsToLower question)) = true) :
    (analyzeQuestion question).primaryScenario = "COMPARISON" ∧
    (analyzeQuestion question).primaryScenario ≠ "FULL_CONDITION" ∧
    generateResponseDispatch (analyzeQuestion question).primaryScenario =
      HandlerTag.comparison := by
  have hp : (analyzeQuestion question).primaryScenario = "COMPARISON" := by
    simp [analyzeQuestion, questionScenarios, getPrimaryScenario, h]
  refine ⟨hp, ?_, ?_⟩
  · rw [hp]; decide
  · rw [hp]; decide

/-- C3 witness: the spec's own example `"아이폰 16 256 SK 번호이동 어디가 더
싸요?"` carries all four structured fields (`checkFullCondition` holds on
it) and still classifies as `"COMPARISON"`. -/
theorem c3_comparison_takes_priority_witness :
    comparisonTest (jsTrim (jsToLower "아이폰 16 256 SK 번호이동 어디가 더 싸요?")) = true ∧
    checkFullCondition (jsTrim (jsToLower "아이폰 16 256 SK 번호이동 어디가 더 싸요?")) = true ∧
    (analyzeQuestion "아이폰 16 256 SK 번호이동 어디가 더 싸요?").primaryScenario = "COMPARISON" :=
  ⟨by decide, by decide,
   (c3_comparison_takes_priority "아이폰 16 256 SK 번호이동 어디가 더 싸요?" (by decide)).1⟩

/-- A carrier keyword in the lowercased question makes `checkInformal`
fire: the `/(SK|KT|LG)/i` test on a lowercased-and-trimmed question is the
`sk`/`kt`/`lg` containment that `checkInformal` also tests. -/
theorem checkInformal_of_telecom (question : String)
    (h : telecomKeywordTest (jsTrim (jsToLower question)) = true) :
    checkInformal (jsTrim (jsToLower question)) = true := by
  unfold telecomKeywordTest at h
  rw [jsToLower_jsTrim_jsToLower] at h
  unfold checkInformal
  rcases (by simpa using h :
      (containsStr (jsTrim (jsToLower question)) "sk" = true ∨
       containsStr (jsTrim (jsToLower question)) "kt" = true) ∨
      containsStr (jsTrim (jsToLower question)) "lg" = true) with (h1 | h1) | h1 <;>
    simp [h1]

/-- C10: in this classifier variant, once a question is not a comparison,
any carrier keyword (`sk`/`kt`/`lg`), transaction abbreviation
(`번이`/`기변`) or option word (`프맥`/`울트라`/`플러스`/`프로`) in the
lowercased text forces the `"INFORMAL"` scenario and the external-GPT
handler; consequently no question at all receives `"FULL_CONDITION"` or
`"MODEL_CAPACITY_TELECOM"` as its primary scenario, because both checks
require the carrier keyword that `checkInformal` preempts. -/
theorem c10_informal_preempts_structured (question : String) :
    (comparisonTest (jsTrim (jsToLower question)) = false →
     (containsStr (jsTrim (jsToLower question)) "sk" = true ∨
      containsStr (jsTrim (jsToLower question)) "kt" = true ∨
      containsStr (jsTrim (jsToLower question)) "lg" = true ∨
      containsStr (jsTrim (jsToLower question)) "번이" = true ∨
      containsStr (jsTrim (jsToLower question)) "기변" = true ∨
      containsStr (jsTrim (jsToLower question)) "프맥" = true ∨
      containsStr (jsTrim (jsToLower question)) "울트라" = true ∨
      containsStr (jsTrim (jsToLower question)) "플러스" = true ∨
      containsStr (jsTrim (jsToLower question)) "프로" = true) →
     (analyzeQuestion question).primaryScenario = "INFORMAL" ∧
     generateResponseDispatch (analyzeQuestion question).primaryScenario =
       HandlerTag.informalGPT) ∧
    (analyzeQuestion question).primaryScenario ≠ "FULL_CONDITION" ∧
    (analyzeQuestion question).primaryScenario ≠ "MODEL_CAPACITY_TELECOM" := by
  constructor
  · intro hcomp hin
    have hinf : checkInformal (jsTrim (jsToLower question)) = true := by
      unfold checkInformal
      rcases hin with h | h | h | h | h | h | h | h | h <;> simp [h]
    have hp : (analyzeQuestion question).primaryScenario = "INFORMAL" := by
      simp [analyzeQuestion, questionScenarios, getPrimaryScenario, hcomp, hinf]
    exact ⟨hp, by rw [hp]; decide⟩
  · cases hc : comparisonTest (jsTrim (jsToLower question)) with
    | true =>
      have hp : (analyzeQuestion question).primaryScenario = "COMPARISON" := by
        simp [analyzeQuestion, questionScenarios, getPrimaryScenario, hc]
      rw [hp]
      exact ⟨by decide, by decide⟩
    | false =>
      cases hi : checkInformal (jsTrim (jsToLower question)) with
      | true =>
        have hp : (analyzeQuestion question).primaryScenario = "INFORMAL" := by
          simp [analyzeQuestion, questionScenarios, getPrimaryScenario, hc, hi]
        rw [hp]
        exact ⟨by decide, by decide⟩
      | false =>
        have htel : telecomKeywordTest (jsTrim (jsToLower question)) = false := by
          cases h : telecomKeywordTest (jsTrim (jsToLower question)) with
          | false => rfl
          | true => rw [checkInformal_of_telecom question h] at hi; exact absurd hi (by simp)
        have hfc : checkFullCondition (jsTrim (jsToLower question)) = false := by
          unfold checkFullCondition
          rw [htel]
          simp
        have hmct : checkModelCapacityTelecom (jsTrim (jsToLower question)) = false := by
          unfold checkModelCapacityTelecom
          rw [htel]
          simp
        have hp : (analyzeQuestion question).primaryScenario =
            getPrimaryScenario (questionScenarios (jsTrim (jsToLower question))) := rfl
        rw [hp]
        unfold getPrimaryScenario questionScenarios
        simp only [hc, hfc, hmct, hi, if_false]
        refine ⟨?_, ?_⟩ <;> (repeat' split) <;> simp

/-- C10 witness: `"갤럭시 S25 256 SK 번호이동 얼마예요?"` names a carrier and
is not a comparison, so it is classified `"INFORMAL"` and dispatched to the
GPT fallback handler rather than to the full-condition handler. -/
theorem c10_informal_preempts_structured_witness :
    (analyzeQuestion "갤럭시 S25 256 SK 번호이동 얼마예요?").primaryScenario = "INFORMAL" ∧
    generateResponseDispatch
      (analyzeQuestion "갤럭시 S25 256 SK 번호이동 얼마예요?").primaryScenario =
      HandlerTag.informalGPT ∧
    (analyzeQuestion "갤럭시 S25 256 SK 번호이동 얼마예요?").primaryScenario ≠ "FULL_CONDITION" :=
  ⟨((c10_informal_preempts_structured "갤럭시 S25 256 SK 번호이동 얼마예요?").1
      (by decide) (Or.inl (by decide))).1,
   ((c10_informal_preempts_structured "갤럭시 S25 256 SK 번호이동 얼마예요?").1
      (by decide) (Or.inl (by decide))).2,
   (c10_informal_preempts_structured "갤럭시 S25 256 SK 번호이동 얼마예요?").2.1⟩

/-- C1 counterexample: a data row whose device-upgrade cells (model name,
plan fee, price — columns F, G, I) are all non-empty but whose first cell is
empty is skipped entirely, so no device-upgrade record is emitted, contrary
to the claim that such a record is emitted exactly when its own three
defining cells are non-empty. -/
theorem c1_counterexample :
    cell ["", "", "", "", "", "아이폰 16", "60000", "256", "900000"] 5 ≠ "" ∧
    cell ["", "", "", "", "", "아이폰 16", "60000", "256", "900000"] 6 ≠ "" ∧
    cell ["", "", "", "", "", "아이폰 16", "60000", "256", "900000"] 8 ≠ "" ∧
    parseFullSheetStructure
      [("SK 온라인",
        [[], [], ["", "", "", "", "", "아이폰 16", "60000", "256", "900000"]])] = [] := by
  decide

/-- C1 as amended: data rows are those from the third row of a section on; a
row whose first cell is empty or whitespace-only is skipped entirely.  For
the remaining rows a port-in record is emitted exactly when cells A, B, D
are non-empty, and a device-upgrade record exactly when cells F, G, I are
non-empty; the capacity cells (C and H) never influence emission, and a
capacity cell without a digit (in particular an empty one) yields the
`"기본"` sentinel. -/
theorem c1_row_emission (name : String) (rows : List (List String))
    (info : SheetInfo) (row : List String) :
    parseFullSheetStructure [(name, rows)] =
      (if rows.length < 3 then []
       else (rows.drop 2).flatMap (rowRecords (parseSheetInfo name))) ∧
    ((rowRecords info row).any (fun r => r.type == "번호이동") =
      (cell row 0 != "" && jsTrim (cell row 0) != "" &&
       cell row 1 != "" && cell row 3 != "")) ∧
    ((rowRecords info row).any (fun r => r.type == "기기변경") =
      (cell row 0 != "" && jsTrim (cell row 0) != "" &&
       cell row 5 != "" && cell row 6 != "" && cell row 8 != "")) ∧
    (∀ r ∈ rowRecords info row, r.type = "번호이동" →
      r.capacity = normalizeCapacity (cell row 2)) ∧
    (∀ r ∈ rowRecords info row, r.type = "기기변경" →
      r.capacity = normalizeCapacity (cell row 7)) ∧
    (∀ s : String, firstDigitRun s.toList = none → normalizeCapacity s = "기본") := by
  refine ⟨?_, ?_, ?_, ?_, ?_, ?_⟩
  · simp [parseFullSheetStructure]
  · simp only [rowRecords]
    cases h0 : cell row 0 == "" <;> cases ht : jsTrim (cell row 0) == "" <;>
      cases h1 : cell row 1 == "" <;> cases h3 : cell row 3 == "" <;>
      cases h5 : cell row 5 == "" <;> cases h6 : cell row 6 == "" <;>
      cases h8 : cell row 8 == "" <;>
      simp_all
  · simp only [rowRecords]
    cases h0 : cell row 0 == "" <;> cases ht : jsTrim (cell row 0) == "" <;>
      cases h1 : cell row 1 == "" <;> cases h3 : cell row 3 == "" <;>
      cases h5 : cell row 5 == "" <;> cases h6 : cell row 6 == "" <;>
      cases h8 : cell row 8 == "" <;>
      simp_all
  · intro r hr hty
    simp only [rowRecords] at hr
    split at hr
    · simp at hr
    · simp only [List.mem_append] at hr
      rcases hr with hr | hr <;> split at hr <;> simp at hr <;> subst hr
      · rfl
      · simp at hty
  · intro r hr hty
    simp only [rowRecords] at hr
    split at hr
    · simp at hr
    · simp only [List.mem_append] at hr
      rcases hr with hr | hr <;> split at hr <;> simp at hr <;> subst hr
      · simp at hty
      · rfl
  · intro s h
    unfold normalizeCapacity
    split
    · rfl
    · rw [h]

/-- C1 witness: on the counterexample row the amended characterization
evaluates to no device-upgrade record (the first cell is empty), and a
digit-free capacity cell normalizes to `"기본"`. -/
theorem c1_row_emission_witness :
    ((rowRecords { telecom := "SK", channel := "온라인" }
        ["", "", "", "", "", "아이폰 16", "60000", "256", "900000"]).any
      (fun r => r.type == "기기변경")) = false ∧
    normalizeCapacity "용량없음" = "기본" := by
  constructor
  · rw [(c1_row_emission "SK 온라인" [] { telecom := "SK", channel := "온라인" }
      ["", "", "", "", "", "아이폰 16", "60000", "256", "900000"]).2.2.1]
    decide
  · exact (c1_row_emission "SK 온라인" [] { telecom := "SK", channel := "온라인" }
      []).2.2.2.2.2 "용량없음" (by decide)

/-- C2 counterexample: a record carrying the `"기본"` capacity sentinel is
rejected by the `isCapacityMatch`-based capacity constraint as soon as a
capacity is requested — a capacity-specific query over a catalog holding
only the sentinel record matches nothing, contrary to the claim that the
sentinel matches any requested capacity. -/
theorem c2_counterexample :
    isCapacityMatch (some "256") "기본" = false ∧
    hmcMatching
      { brand := some "아이폰", model := some "16", capacity := some "256",
        telecom := none, type := none }
      [{ modelRaw := "아이폰 16", modelNorm := "아이폰16", capacity := "기본",
         telecom := "SK", type := "번호이동", channel := "온라인",
         plan := "60000", price := "900000", serviceInfo := none }] = [] := by
  decide

/-- C2 as amended: the two filter variants disagree on the sentinel.  In the
`findMatchingRecords` variant the capacity constraint accepts every record
whose capacity is `"기본"` (such a record survives the whole filter whenever
the remaining present constraints hold), while the `isCapacityMatch` variant
rejects the sentinel whenever any capacity is requested. -/
theorem c2_sentinel_capacity (p : ParsedData) (records : List PriceRecord)
    (r : PriceRecord)
    (hb : strTruthy p.brand = true ∨ strTruthy p.model = true)
    (hc : strTruthy p.capacity = true)
    (hr : r ∈ records)
    (hm : r.modelNorm = fmrTarget p records)
    (hcap : r.capacity = "기본")
    (ht : strTruthy p.telecom = true → r.telecom = orEmpty p.telecom)
    (hty : strTruthy p.type = true → r.type = orEmpty p.type) :
    r ∈ findMatchingRecords p records ∧
    (∀ u : String, u ≠ "" → isCapacityMatch (some u) "기본" = false) := by
  constructor
  · have h1 : (!strTruthy p.brand && !strTruthy p.model) = false := by
      rcases hb with h | h <;> simp [h]
    have hm1 : r ∈ fmrModelFiltered p records :=
      List.mem_filter.2 ⟨hr, by simp [hm]⟩
    have hm2 : r ∈ fmrCapacityFiltered p records := by
      unfold fmrCapacityFiltered
      rw [hc]
      simp only [if_true]
      exact List.mem_filter.2 ⟨hm1, by simp [hcap]⟩
    have hm3 : r ∈ fmrTelecomFiltered p records := by
      unfold fmrTelecomFiltered
      cases htel : strTruthy p.telecom with
      | true =>
        simp only [if_true]
        exact List.mem_filter.2 ⟨hm2, by simp [ht htel]⟩
      | false => simpa using hm2
    have hm4 : r ∈ fmrTypeFiltered p records := by
      unfold fmrTypeFiltered
      cases htyp : strTruthy p.type with
      | true =>
        simp only [if_true]
        exact List.mem_filter.2 ⟨hm3, by simp [hty htyp]⟩
      | false => simpa using hm3
    unfold findMatchingRecords
    rw [h1, hc]
    simpa using hm4
  · intro u hu
    have h1 : strTruthy (some u) = true := by simp [strTruthy, hu]
    simp [isCapacityMatch, h1]

/-- C2 witness: a `"기본"` record of the matched model survives the
`findMatchingRecords` filter under a capacity-specific query, and the
`isCapacityMatch` variant rejects the sentinel for the requested `"256"`. -/
theorem c2_sentinel_capacity_witness :
    ({ modelRaw := "아이폰 16", modelNorm := "아이폰16", capacity := "기본",
       telecom := "SK", type := "번호이동", channel := "온라인",
       plan := "60000", price := "900000", serviceInfo := none } : PriceRecord) ∈
      findMatchingRecords
        { brand := some "아이폰", model := some "16", capacity := some "256",
          telecom := none, type := none }
        [{ modelRaw := "아이폰 16", modelNorm := "아이폰16", capacity := "기본",
           telecom := "SK", type := "번호이동", channel := "온라인",
           plan := "60000", price := "900000", serviceInfo := none }] ∧
    isCapacityMatch (some "256") "기본" = false := by
  have happ := c2_sentinel_capacity
      { brand := some "아이폰", model := some "16", capacity := some "256",
        telecom := none, type := none }
      [{ modelRaw := "아이폰 16", modelNorm := "아이폰16", capacity := "기본",
         telecom := "SK", type := "번호이동", channel := "온라인",
         plan := "60000", price := "900000", serviceInfo := none }]
      { modelRaw := "아이폰 16", modelNorm := "아이폰16", capacity := "기본",
        telecom := "SK", type := "번호이동", channel := "온라인",
        plan := "60000", price := "900000", serviceInfo := none }
      (Or.inl (by decide)) (by decide) (by decide) (by decide) (by decide)
      (fun h => absurd h (by decide)) (fun h => absurd h (by decide))
  exact ⟨happ.1, happ.2 "256" (by decide)⟩

/-- Adding a carrier to a query changes only the carrier-filter stage, so
the filtered list with the carrier is a sublist of the one without it. -/
theorem findMatchingRecords_telecom_sublist (p : ParsedData) (t : String)
    (records : List PriceRecord) :
    List.Sublist (findMatchingRecords { p with telecom := some t } records)
      (findMatchingRecords { p with telecom := none } records) := by
  have hcapf : fmrCapacityFiltered { p with telecom := some t } records =
      fmrCapacityFiltered { p with telecom := none } records := rfl
  have htel : List.Sublist (fmrTelecomFiltered { p with telecom := some t } records)
      (fmrTelecomFiltered { p with telecom := none } records) := by
    unfold fmrTelecomFiltered
    by_cases hts : strTruthy (some t) = true
    · simp only [hts, if_true, show strTruthy (none : Option String) = false from rfl,
        Bool.false_eq_true, if_false, hcapf]
      exact List.filter_sublist _
    · simp only [Bool.not_eq_true] at hts
      simp only [hts, Bool.false_eq_true, if_false,
        show strTruthy (none : Option String) = false from rfl, hcapf]
      exact List.Sublist.refl _
  have hty : List.Sublist (fmrTypeFiltered { p with telecom := some t } records)
      (fmrTypeFiltered { p with telecom := none } records) := by
    unfold fmrTypeFiltered
    by_cases htp : strTruthy p.type = true
    · simp only [htp, if_true]
      exact htel.filter _
    · simp only [Bool.not_eq_true] at htp
      simp only [htp, Bool.false_eq_true, if_false]
      exact htel
  unfold findMatchingRecords
  by_cases h1 : (!strTruthy p.brand && !strTruthy p.model) = true
  · simp only [h1, if_true]
    exact List.Sublist.refl _
  · simp only [Bool.not_eq_true] at h1
    by_cases h2 : (!strTruthy p.capacity) = true
    · simp only [h1, h2, Bool.false_eq_true, if_false, if_true]
      exact List.Sublist.refl _
    · simp only [Bool.not_eq_true] at h2
      simp only [h1, h2, Bool.false_eq_true, if_false]
      exact hty

/-- C9: for a query with model and capacity present, the result set with an
added carrier constraint is a subset of — and never larger than — the
result set without it, all other fields equal. -/
theorem c9_carrier_constraint_narrows (p : ParsedData) (t : String)
    (records : List PriceRecord)
    (_hmod : strTruthy p.model = true) (_hcap : strTruthy p.capacity = true) :
    findMatchingRecords { p with telecom := some t } records ⊆
      findMatchingRecords { p with telecom := none } records ∧
    (findMatchingRecords { p with telecom := some t } records).length ≤
      (findMatchingRecords { p with telecom := none } records).length :=
  ⟨(findMatchingRecords_telecom_sublist p t records).subset,
   (findMatchingRecords_telecom_sublist p t records).length_le⟩

/-- C9 witness: over a two-record catalog (one SK, one KT), constraining the
same model-and-capacity query by SK yields a result no larger than the
unconstrained one. -/
theorem c9_carrier_constraint_narrows_witness :
    (findMatchingRecords
      { brand := some "갤럭시", model := some "S25", capacity := some "256",
        telecom := some "SK", type := none }
      [{ modelRaw := "갤럭시 S25", modelNorm := "갤럭시s25", capacity := "256",
         telecom := "SK", type := "번호이동", channel := "온라인",
         plan := "55000", price := "850000", serviceInfo := none },
       { modelRaw := "갤럭시 S25", modelNorm := "갤럭시s25", capacity := "256",
         telecom := "KT", type := "번호이동", channel := "온라인",
         plan := "52000", price := "830000", serviceInfo := none }]).length ≤
    (findMatchingRecords
      { brand := some "갤럭시", model := some "S25", capacity := some "256",
        telecom := none, type := none }
      [{ modelRaw := "갤럭시 S25", modelNorm := "갤럭시s25", capacity := "256",
         telecom := "SK", type := "번호이동", channel := "온라인",
         plan := "55000", price := "850000", serviceInfo := none },
       { modelRaw := "갤럭시 S25", modelNorm := "갤럭시s25", capacity := "256",
         telecom := "KT", type := "번호이동", channel := "온라인",
         plan := "52000", price := "830000", serviceInfo := none }]).length :=
  (c9_carrier_constraint_narrows
    { brand := some "갤럭시", model := some "S25", capacity := some "256",
      telecom := none, type := none }
    "SK"
    [{ modelRaw := "갤럭시 S25", modelNorm := "갤럭시s25", capacity := "256",
       telecom := "SK", type := "번호이동", channel := "온라인",
       plan := "55000", price := "850000", serviceInfo := none },
     { modelRaw := "갤럭시 S25", modelNorm := "갤럭시s25", capacity := "256",
       telecom := "KT", type := "번호이동", channel := "온라인",
       plan := "52000", price := "830000", serviceInfo := none }]
    (by decide) (by decide)).2

/-- Every record a row contributes carries `modelNorm` computed by
`normalizeModelName` from its own `modelRaw`, and a capacity computed by
`normalizeCapacity` from the row's capacity cell (column C or H). -/
theorem rowRecords_shape (info : SheetInfo) (row : List String) (r : PriceRecord)
    (hr : r ∈ rowRecords info row) :
    r.modelNorm = normalizeModelName r.modelRaw ∧
    (r.capacity = normalizeCapacity (cell row 2) ∨
     r.capacity = normalizeCapacity (cell row 7)) := by
  simp only [rowRecords] at hr
  split at hr
  · simp at hr
  · simp only [List.mem_append] at hr
    rcases hr with hr | hr <;> split at hr <;> simp at hr <;> subst hr
    · exact ⟨rfl, Or.inl rfl⟩
    · exact ⟨rfl, Or.inr rfl⟩

/-- Every extracted record comes from some row of some section. -/
theorem mem_parseFullSheetStructure (sheetsData : List (String × List (List String)))
    (r : PriceRecord) (hr : r ∈ parseFullSheetStructure sheetsData) :
    ∃ info row, r ∈ rowRecords info row := by
  unfold parseFullSheetStructure at hr
  rw [List.mem_flatMap] at hr
  obtain ⟨sd, _, hr⟩ := hr
  split at hr
  · simp at hr
  · rw [List.mem_flatMap] at hr
    obtain ⟨row, _, hr⟩ := hr
    exact ⟨parseSheetInfo sd.1, row, hr⟩

/-- `normalizeModelName` agrees with the one-pass normalization the spec
describes: the two sequential regex replacements compose into one filter
over the lowercased characters. -/
theorem normalizeModelName_eq_spec (s : String) :
    normalizeModelName s = specModelNorm s := by
  unfold normalizeModelName specModelNorm jsToLower
  rw [toList_mk]
  congr 1
  rw [List.filter_filter]
  exact List.filter_congr (fun c _ => by rw [Bool.and_comm])

/-- C5: every extracted record's `modelNorm` is exactly the spec's pure
normalization of its `modelRaw` — lowercase, whitespace removed, every
character outside Latin letters, digits and the source's Hangul ranges
removed; the extractor computes it by `normalizeModelName` and no other
path produces it. -/
theorem c5_modelNorm_pure_function (sheetsData : List (String × List (List String)))
    (r : PriceRecord) (hr : r ∈ parseFullSheetStructure sheetsData) :
    r.modelNorm = specModelNorm r.modelRaw ∧
    r.modelNorm = normalizeModelName r.modelRaw := by
  obtain ⟨info, row, hrow⟩ := mem_parseFullSheetStructure sheetsData r hr
  have h := (rowRecords_shape info row r hrow).1
  exact ⟨by rw [h, normalizeModelName_eq_spec], h⟩

/-- C5 witness: the record extracted from a concrete row has
`modelNorm = specModelNorm modelRaw`. -/
theorem c5_modelNorm_pure_function_witness :
    ("갤럭시s25" : String) = specModelNorm "갤럭시 S25!" := by
  have h := c5_modelNorm_pure_function
    [("SK 온라인", [[], [], ["갤럭시 S25!", "55000", "256GB", "850000"]])]
    { modelRaw := "갤럭시 S25!", modelNorm := "갤럭시s25", capacity := "256",
      telecom := "SK", type := "번호이동", channel := "온라인",
      plan := "55000", price := "850000", serviceInfo := none }
    (by decide)
  exact h.1

/-- A successful `firstDigitRun` yields a non-empty list of digits. -/
theorem firstDigitRun_digits :
    ∀ l run, firstDigitRun l = some run → run ≠ [] ∧ run.all isJsDigit = true := by
  intro l
  induction l with
  | nil => intro run h; simp [firstDigitRun] at h
  | cons a t ih =>
    intro run h
    simp only [firstDigitRun] at h
    split at h
    · rename_i hdig
      rw [Option.some.injEq] at h
      subst h
      refine ⟨by simp, ?_⟩
      simp only [List.all_cons, hdig, Bool.true_and]
      rw [List.all_eq_true]
      intro c hc
      exact List.mem_takeWhile_imp hc
    · exact ih run h

/-- `normalizeCapacity` returns the sentinel or a non-empty digit string. -/
theorem normalizeCapacity_shape (s : String) :
    normalizeCapacity s = "기본" ∨
    (normalizeCapacity s ≠ "" ∧ (normalizeCapacity s).toList.all isJsDigit = true) := by
  unfold normalizeCapacity
  split
  · exact Or.inl rfl
  · cases hfd : firstDigitRun s.toList with
    | none => simp [hfd]
    | some run =>
      simp only [hfd]
      right
      have hprop := firstDigitRun_digits s.toList run hfd
      refine ⟨?_, ?_⟩
      · intro h
        exact hprop.1 (by simpa using congrArg String.toList h)
      · rw [toList_mk]
        exact hprop.2

/-- C6: every extracted record's capacity is either the `"기본"` sentinel or
a non-empty string of digits; it is never empty and never carries non-digit
characters. -/
theorem c6_capacity_digits_or_sentinel (sheetsData : List (String × List (List String)))
    (r : PriceRecord) (hr : r ∈ parseFullSheetStructure sheetsData) :
    r.capacity = "기본" ∨
    (r.capacity ≠ "" ∧ r.capacity.toList.all isJsDigit = true) := by
  obtain ⟨info, row, hrow⟩ := mem_parseFullSheetStructure sheetsData r hr
  rcases (rowRecords_shape info row r hrow).2 with h | h <;> rw [h]
  · exact normalizeCapacity_shape (cell row 2)
  · exact normalizeCapacity_shape (cell row 7)

/-- C6 witness: the two records of a concrete sheet carry `"256"` (digits)
and `"기본"` respectively. -/
theorem c6_capacity_digits_or_sentinel_witness :
    (("256" : String) = "기본" ∨ (("256" : String) ≠ "" ∧ ("256" : String).toList.all isJsDigit = true)) ∧
    (("기본" : String) = "기본" ∨ (("기본" : String) ≠ "" ∧ ("기본" : String).toList.all isJsDigit = true)) :=
  ⟨c6_capacity_digits_or_sentinel
    [("SK 온라인", [[], [],
      ["갤럭시 S25", "55000", "256GB", "850000", "", "아이폰 16", "60000", "", "900000"]])]
    { modelRaw := "갤럭시 S25", modelNorm := "갤럭시s25", capacity := "256",
      telecom := "SK", type := "번호이동", channel := "온라인",
      plan := "55000", price := "850000", serviceInfo := none }
    (by decide),
   c6_capacity_digits_or_sentinel
    [("SK 온라인", [[], [],
      ["갤럭시 S25", "55000", "256GB", "850000", "", "아이폰 16", "60000", "", "900000"]])]
    { modelRaw := "아이폰 16", modelNorm := "아이폰16", capacity := "기본",
      telecom := "SK", type := "기기변경", channel := "온라인",
      plan := "60000", price := "900000", serviceInfo := none }
    (by decide)⟩

/-- A pattern occurring in `b` occurs in `a ++ b`. -/
theorem listContains_append_right (pat a b : List Char)
    (h : listContains pat b = true) : listContains pat (a ++ b) = true := by
  induction a with
  | nil => simpa using h
  | cons x xs ih =>
    simp only [List.cons_append, listContains, Bool.or_eq_true]
    exact Or.inr ih

/-- C4 counterexample: requested capacity `"256"` yields zero records and the
matched model does offer the numeric capacity `"0512"`, yet the pipeline
returns the not-found message instead of a breakdown — the nearest capacity
`512` is re-rendered as `"512"`, which matches no record stored as
`"0512"`. -/
theorem c4_counterexample :
    hmcMatching
      { brand := some "갤럭시", model := some "S25", capacity := some "256",
        telecom := none, type := none }
      [{ modelRaw := "갤럭시 S25", modelNorm := "갤럭시s25", capacity := "0512",
         telecom := "SK", type := "번호이동", channel := "온라인",
         plan := "55000", price := "850000", serviceInfo := none }] = [] ∧
    hmcCapacityNumbers
      { brand := some "갤럭시", model := some "S25", capacity := some "256",
        telecom := none, type := none }
      [{ modelRaw := "갤럭시 S25", modelNorm := "갤럭시s25", capacity := "0512",
         telecom := "SK", type := "번호이동", channel := "온라인",
         plan := "55000", price := "850000", serviceInfo := none }] = [512] ∧
    handleModelCapacity
      { brand := some "갤럭시", model := some "S25", capacity := some "256",
        telecom := none, type := none }
      [{ modelRaw := "갤럭시 S25", modelNorm := "갤럭시s25", capacity := "0512",
         telecom := "SK", type := "번호이동", channel := "온라인",
         plan := "55000", price := "850000", serviceInfo := none }] =
      .notFound (hmcNotFoundMsg
        { brand := some "갤럭시", model := some "S25", capacity := some "256",
          telecom := none, type := none }
        [{ modelRaw := "갤럭시 S25", modelNorm := "갤럭시s25", capacity := "0512",
           telecom := "SK", type := "번호이동", channel := "온라인",
           plan := "55000", price := "850000", serviceInfo := none }]) := by
  refine ⟨by decide, by decide, by decide⟩

/-- C4 as amended: when the requested capacity is numeric, yields zero
matches, some numeric capacity is available for the matched model, and the
decimal re-rendering of the nearest one matches a stored capacity string
(which holds whenever capacities are stored canonically, without leading
zeros), the pipeline returns the breakdown of the records at a capacity
minimizing the absolute numeric distance to the request, and the rendered
header discloses the substitution. -/
theorem c4_nearest_capacity_fallback (e : ParsedData) (records : List PriceRecord)
    (c : String) (req : Int)
    (hcap : e.capacity = some c) (hc : c ≠ "")
    (hreq : jsParseInt c = some req)
    (hempty : hmcMatching e records = [])
    (hsorted : hmcSorted e records ≠ [])
    (hfb : hmcFallback e records ≠ []) :
    handleModelCapacity e records =
      .breakdown (hmcFallback e records) (hmcSubstitutionInfo e records) ∧
    (∀ m ∈ hmcCapacityNumbers e records,
      ∃ n, hmcSorted e records = n :: (hmcSorted e records).tail ∧
        hmcClosest e records = toString n ∧
        (n - req).natAbs ≤ (m - req).natAbs) ∧
    containsStr (hmcSubstitutionInfo e records) "대신 가장 가까운 용량" = true := by
  have hcaps : hmcAvailableCapacities e records ≠ [] := by
    intro hnil
    apply hsorted
    unfold hmcSorted hmcCapacityNumbers
    rw [hnil]
    cases jsParseInt (orEmpty e.capacity) <;> rfl
  have hct : strTruthy e.capacity = true := by
    rw [hcap]
    simp [strTruthy, hc]
  refine ⟨?_, ?_, ?_⟩
  · unfold handleModelCapacity
    rw [hempty]
    simp only [List.isEmpty_nil, if_true, hct, Bool.true_and]
    rw [if_pos ?_, if_pos ?_, if_pos ?_]
    · simpa using hfb
    · simpa using hsorted
    · simpa using hcaps
  · intro m hm
    have hreq' : jsParseInt (orEmpty e.capacity) = some req := by rw [hcap]; exact hreq
    have hs : hmcSorted e records =
        (hmcCapacityNumbers e records).insertionSort
          (fun a b => (a - req).natAbs ≤ (b - req).natAbs) := by
      unfold hmcSorted
      rw [hreq']
    obtain ⟨n, t, hnt⟩ : ∃ n t, hmcSorted e records = n :: t := by
      cases h : hmcSorted e records with
      | nil => exact absurd h hsorted
      | cons n t => exact ⟨n, t, rfl⟩
    refine ⟨n, by simp [hnt], by unfold hmcClosest; rw [hnt], ?_⟩
    letI : IsTotal Int (fun a b => (a - req).natAbs ≤ (b - req).natAbs) :=
      ⟨fun a b => Nat.le_total _ _⟩
    letI : IsTrans Int (fun a b => (a - req).natAbs ≤ (b - req).natAbs) :=
      ⟨fun a b d hab hbd => Nat.le_trans hab hbd⟩
    have hsorted2 := List.sorted_insertionSort
      (fun a b : Int => (a - req).natAbs ≤ (b - req).natAbs)
      (hmcCapacityNumbers e records)
    rw [← hs, hnt] at hsorted2
    have hmem : m ∈ hmcSorted e records := by
      rw [hs, List.mem_insertionSort]
      exact hm
    rw [hnt, List.mem_cons] at hmem
    rcases hmem with rfl | hmem
    · exact Nat.le_refl _
    · exact (List.pairwise_cons.1 hsorted2).1 m hmem
  · unfold hmcSubstitutionInfo containsStr
    rw [show optStr e.brand ++ " " ++ optStr e.model ++ " " ++ hmcClosest e records ++
        "GB (" ++ optStr e.capacity ++ "GB 대신 가장 가까운 용량)" =
        (optStr e.brand ++ " " ++ optStr e.model ++ " " ++ hmcClosest e records ++
         "GB (" ++ optStr e.capacity) ++ "GB 대신 가장 가까운 용량)" from by
      simp [String.append_assoc]]
    rw [show ((optStr e.brand ++ " " ++ optStr e.model ++ " " ++ hmcClosest e records ++
        "GB (" ++ optStr e.capacity) ++ "GB 대신 가장 가까운 용량)").toList =
        (optStr e.brand ++ " " ++ optStr e.model ++ " " ++ hmcClosest e records ++
         "GB (" ++ optStr e.capacity).toList ++ ("GB 대신 가장 가까운 용량)").toList from rfl]
    exact listContains_append_right _ _ _ (by decide)

/-- C4 witness: requested `"256"` absent but `"512"` present — the handler
returns the `"512"` breakdown and the header carries the substitution
disclosure. -/
theorem c4_nearest_capacity_fallback_witness :
    handleModelCapacity
      { brand := some "갤럭시", model := some "S25", capacity := some "256",
        telecom := none, type := none }
      [{ modelRaw := "갤럭시 S25", modelNorm := "갤럭시s25", capacity := "512",
         telecom := "SK", type := "번호이동", channel := "온라인",
         plan := "55000", price := "850000", serviceInfo := none }] =
      .breakdown
        (hmcFallback
          { brand := some "갤럭시", model := some "S25", capacity := some "256",
            telecom := none, type := none }
          [{ modelRaw := "갤럭시 S25", modelNorm := "갤럭시s25", capacity := "512",
             telecom := "SK", type := "번호이동", channel := "온라인",
             plan := "55000", price := "850000", serviceInfo := none }])
        (hmcSubstitutionInfo
          { brand := some "갤럭시", model := some "S25", capacity := some "256",
            telecom := none, type := none }
          [{ modelRaw := "갤럭시 S25", modelNorm := "갤럭시s25", capacity := "512",
             telecom := "SK", type := "번호이동", channel := "온라인",
             plan := "55000", price := "850000", serviceInfo := none }]) ∧
    containsStr
      (hmcSubstitutionInfo
        { brand := some "갤럭시", model := some "S25", capacity := some "256",
          telecom := none, type := none }
        [{ modelRaw := "갤럭시 S25", modelNorm := "갤럭시s25", capacity := "512",
           telecom := "SK", type := "번호이동", channel := "온라인",
           plan := "55000", price := "850000", serviceInfo := none }])
      "대신 가장 가까운 용량" = true := by
  have happ := c4_nearest_capacity_fallback
    { brand := some "갤럭시", model := some "S25", capacity := some "256",
      telecom := none, type := none }
    [{ modelRaw := "갤럭시 S25", modelNorm := "갤럭시s25", capacity := "512",
       telecom := "SK", type := "번호이동", channel := "온라인",
       plan := "55000", price := "850000", serviceInfo := none }]
    "256" 256 rfl (by decide) (by decide) (by decide) (by decide) (by decide)
  exact ⟨happ.1, happ.2.2⟩


/-- Any list is a `isPrefixOf`-prefix of itself followed by anything. -/
theorem isPrefixOf_append_self : ∀ (p t : List Char), p.isPrefixOf (p ++ t) = true := by
  intro p
  induction p with
  | nil => intro t; simp [List.isPrefixOf]
  | cons a q ih =>
    intro t
    simp only [List.cons_append, List.isPrefixOf_cons₂_self]
    exact ih t

/-- When no tagged opening fence occurs in the text, the fence removal is
the identity, whatever the fuel. -/
theorem removeJsonOpensAux_noop :
    ∀ (fuel : Nat) (l : List Char),
      listContains ("```json".toList) l = false → removeJsonOpensAux fuel l = l := by
  intro fuel
  induction fuel with
  | zero => intro l _; cases l <;> rfl
  | succ n ih =>
    intro l h
    cases l with
    | nil => rfl
    | cons c cs =>
      simp only [listContains, Bool.or_eq_false_iff] at h
      simp only [removeJsonOpensAux, h.1, Bool.false_eq_true, if_false]
      rw [ih cs h.2]

/-- Dropping whitespace stops at a non-whitespace head. -/
theorem dropWhile_ws_stop (a : Char) (l : List Char) (h : isJsWs a = false) :
    List.dropWhile isJsWs (a :: l) = a :: l := by
  rw [List.dropWhile_cons]
  simp [h]

/-- Dropping whitespace passes a whitespace head. -/
theorem dropWhile_ws_pass (a : Char) (l : List Char) (h : isJsWs a = true) :
    List.dropWhile isJsWs (a :: l) = List.dropWhile isJsWs l := by
  rw [List.dropWhile_cons]
  simp [h]

/-- A list whose first and last characters are not whitespace trims to
itself. -/
theorem trimList_of_ends (l : List Char)
    (h1 : ∃ c cs, l = c :: cs ∧ isJsWs c = false)
    (h2 : ∃ c cs, l.reverse = c :: cs ∧ isJsWs c = false) : trimList l = l := by
  obtain ⟨c, cs, rfl, hc⟩ := h1
  obtain ⟨d, ds, hr, hd⟩ := h2
  unfold trimList
  rw [dropWhile_ws_stop c cs hc, hr, dropWhile_ws_stop d ds hd, ← hr,
    List.reverse_reverse]

/-- C7 counterexample: a well-formed JSON payload wrapped in plain (untagged)
Markdown code fences is not recovered — the opening fence survives the
`/```json\s*\n?/` replacement, `JSON.parse` rejects the text, and the
resolver returns the null sentinel instead of the parsed object. -/
theorem c7_counterexample :
    jsonFlatParse "\x7b\"용량\": 256\x7d" = some [("용량", JsonVal.num 256)] ∧
    stripCodeFences "```\n\x7b\"용량\": 256\x7d\n```" = "```\n\x7b\"용량\": 256\x7d" ∧
    processWithGPT (.ok "```\n\x7b\"용량\": 256\x7d\n```") = none := by
  refine ⟨by decide, by decide, by decide⟩

/-- C7 as amended: the resolver never propagates a failure — a capability
error yields the null sentinel — and a reply wrapped in `json`-tagged code
fences is reduced to its bare trimmed payload before parsing, so it parses
exactly when the payload does.  An opening fence without the `json` tag is
not stripped, and such replies fall to the null sentinel (see the
counterexample). -/
theorem c7_fence_stripping (payload : String)
    (hnf : listContains ("```json".toList) (payload.toList ++ "\n```".toList) = false)
    (hhd : ∃ c cs, payload.toList = c :: cs ∧ isJsWs c = false) :
    stripCodeFences ("```json\n" ++ payload ++ "\n```") = jsTrim payload ∧
    (∀ parseOutcome : Except Unit String, parseOutcome = .error () →
      processWithGPT parseOutcome = none) := by
  obtain ⟨c, cs, hpl, hcws⟩ := hhd
  have htl : ("```json\n" ++ payload ++ "\n```").toList =
      '`' :: '`' :: '`' :: 'j' :: 's' :: 'o' :: 'n' :: '\n' ::
        (payload.toList ++ "\n```".toList) := by
    show "```json\n".toList ++ payload.toList ++ "\n```".toList = _
    simp
  constructor
  · unfold stripCodeFences
    have h0 : jsTrim ("```json\n" ++ payload ++ "\n```") =
        "```json\n" ++ payload ++ "\n```" := by
      unfold jsTrim
      rw [trimList_of_ends]
      · exact congrArg String.mk rfl
      · rw [htl]
        exact ⟨'`', _, rfl, by decide⟩
      · rw [htl]
        refine ⟨'`', ((payload.toList ++ ['\n', '`', '`']).reverse ++
          ['\n', 'n', 'o', 's', 'j', '`', '`', '`']), ?_, by decide⟩
        rw [show (payload.toList ++ "\n```".toList) =
            ((payload.toList ++ ['\n', '`', '`']) ++ ['`']) from by simp]
        simp
    rw [h0]
    have hro : removeJsonOpens (("```json\n" ++ payload ++ "\n```").toList) =
        payload.toList ++ "\n```".toList := by
      rw [htl]
      unfold removeJsonOpens
      simp only [List.length_cons]
      have hpre : ("```json".toList).isPrefixOf
          ('`' :: '`' :: '`' :: 'j' :: 's' :: 'o' :: 'n' :: '\n' ::
            (payload.toList ++ "\n```".toList)) = true := by
        rw [show ('`' :: '`' :: '`' :: 'j' :: 's' :: 'o' :: 'n' :: '\n' ::
            (payload.toList ++ "\n```".toList)) =
          "```json".toList ++ ('\n' :: (payload.toList ++ "\n```".toList)) from rfl]
        exact isPrefixOf_append_self _ _
      simp only [removeJsonOpensAux, hpre, if_true]
      rw [show ('`' :: '`' :: '`' :: 'j' :: 's' :: 'o' :: 'n' :: '\n' ::
          (payload.toList ++ "\n```".toList)).drop 7 =
        '\n' :: (payload.toList ++ "\n```".toList) from rfl]
      rw [dropWhile_ws_pass _ _ (by decide)]
      rw [hpl, List.cons_append, dropWhile_ws_stop _ _ hcws, ← List.cons_append, ← hpl]
      exact removeJsonOpensAux_noop _ _ hnf
    rw [hro]
    have hrt : removeTrailingFence (payload.toList ++ "\n```".toList) =
        payload.toList ++ ['\n'] := by
      unfold removeTrailingFence
      have hrev : (payload.toList ++ "\n```".toList).reverse =
          '`' :: '`' :: '`' :: '\n' :: payload.toList.reverse := by
        rw [show (payload.toList ++ "\n```".toList) =
            (payload.toList ++ ['\n']) ++ ['`', '`', '`'] from by simp]
        simp
      rw [hrev, dropWhile_ws_stop _ _ (by decide)]
      show (if (['`', '`', '`'] : List Char).isPrefixOf
            ('`' :: '`' :: '`' :: '\n' :: payload.toList.reverse) = true then
          (List.drop 3 ('`' :: '`' :: '`' :: '\n' :: payload.toList.reverse)).reverse
        else payload.toList ++ "\n```".toList) = payload.toList ++ ['\n']
      rw [show (['`', '`', '`'] : List Char).isPrefixOf
          ('`' :: '`' :: '`' :: '\n' :: payload.toList.reverse) = true from by
        rw [show ('`' :: '`' :: '`' :: '\n' :: payload.toList.reverse) =
            ['`', '`', '`'] ++ ('\n' :: payload.toList.reverse) from rfl]
        exact isPrefixOf_append_self _ _]
      rw [if_pos rfl]
      rw [show ('`' :: '`' :: '`' :: '\n' :: payload.toList.reverse).drop 3 =
        '\n' :: payload.toList.reverse from rfl]
      rw [show ('\n' :: payload.toList.reverse) = (payload.toList ++ ['\n']).reverse from by simp]
      rw [List.reverse_reverse]
    rw [hrt]
    unfold jsTrim trimList
    rw [toList_mk]
    congr 1
    rw [hpl, List.cons_append, dropWhile_ws_stop _ _ hcws, ← List.cons_append]
    rw [show ((c :: cs) ++ ['\n']).reverse = '\n' :: (c :: cs).reverse from by simp]
    rw [dropWhile_ws_pass _ _ (by decide)]
    rw [dropWhile_ws_stop _ _ hcws]
  · intro o ho
    rw [ho]
    rfl

/-- C7 witness: the concrete tagged-fence reply around a parseable payload
is reduced to the bare payload, and a capability failure yields the null
sentinel. -/
theorem c7_fence_stripping_witness :
    stripCodeFences ("```json\n" ++ "\x7b\"브랜드\": \"갤럭시\"\x7d" ++ "\n```") =
      jsTrim "\x7b\"브랜드\": \"갤럭시\"\x7d" ∧
    processWithGPT (.error ()) = none := by
  have happ := c7_fence_stripping "\x7b\"브랜드\": \"갤럭시\"\x7d" (by decide)
    ⟨'{', _, rfl, by decide⟩
  exact ⟨happ.1, happ.2 (.error ()) rfl⟩

/-- C8 counterexample: on a payload without a user utterance both
`kakaoSkill` variants send the guidance envelope with `res.status(400)` —
an error status, not the success (200) status the claim asserts. -/
theorem c8_counterexample :
    (kakaoSkill none "무시됨").1 = 400 ∧
    (kakaoSkill none "무시됨").1 ≠ 200 ∧
    kakaoSkill none "무시됨" = (400, kakaoEnvelope "질문을 입력해주세요.") := by
  refine ⟨by decide, by decide, by decide⟩

/-- C8 as amended: a webhook request whose payload lacks a user utterance is
answered with the guidance message wrapped in the provider envelope
(`version "2.0"`, `template.outputs` with one `simpleText`), but delivered
with HTTP status 400 rather than 200. -/
theorem c8_missing_utterance_envelope (userRequest : Option KakaoUserRequest)
    (answer : String)
    (h : (match userRequest with
          | none => true
          | some ur => !strTruthy ur.utterance) = true) :
    kakaoSkill userRequest answer = (400, kakaoEnvelope "질문을 입력해주세요.") ∧
    (kakaoSkill userRequest answer).2.version = "2.0" ∧
    (kakaoSkill userRequest answer).2.template.outputs =
      [{ simpleText := { text := "질문을 입력해주세요." } }] := by
  have h1 : kakaoSkill userRequest answer = (400, kakaoEnvelope "질문을 입력해주세요.") := by
    unfold kakaoSkill
    rw [h]
    rfl
  exact ⟨h1, by rw [h1]; rfl, by rw [h1]; rfl⟩

/-- C8 witness: a payload whose `userRequest.utterance` is the empty string
receives the guidance envelope with status 400. -/
theorem c8_missing_utterance_envelope_witness :
    kakaoSkill (some { utterance := some "" }) "무시됨" =
      (400, kakaoEnvelope "질문을 입력해주세요.") ∧
    (kakaoSkill (some { utterance := some "" }) "무시됨").2.version = "2.0" :=
  ⟨(c8_missing_utterance_envelope (some { utterance := some "" }) "무시됨" (by decide)).1,
   (c8_missing_utterance_envelope (some { utterance := some "" }) "무시됨" (by decide)).2.1⟩
